import Mathlib

/-!
Shallow embedding of `markdown_to_google_doc.py`.

Strings are modelled as `List Char`.  Python string primitives
(`strip`, `lstrip(" ")`, `rstrip("\n")`, `splitlines`, `startswith`) and the
four regexes (`HEADING_RE`, `CHECKBOX_RE`, `BULLET_RE`, `ASSIGNEE_RE`) are
modelled as executable Lean functions with the semantics of CPython's `re`
module on the line-shaped inputs the program feeds them.
-/

namespace MdToGdoc

/-- Python whitespace (the character class used by `str.strip()` and by the
regex class used in the source's patterns). -/
def pyIsSpace (c : Char) : Bool :=
  c == ' ' || c == '\t' || c == '\n' || c == '\r' || c == '\x0b' || c == '\x0c' ||
  c == '\x1c' || c == '\x1d' || c == '\x1e' || c == '\x1f' || c == '\x85' ||
  c == '\xa0' || c == ' ' ||
  (decide (' ' ≤ c) && decide (c ≤ ' ')) ||
  c == ' ' || c == ' ' || c == ' ' || c == ' ' || c == '　'

/-- Line boundary characters of Python's `str.splitlines`. -/
def isLineBreak (c : Char) : Bool :=
  c == '\n' || c == '\r' || c == '\x0b' || c == '\x0c' ||
  c == '\x1c' || c == '\x1d' || c == '\x1e' || c == '\x85' ||
  c == ' ' || c == ' '

/-- Length of the longest run of characters satisfying `p` at the front. -/
def countLeading (p : Char → Bool) (l : List Char) : Nat :=
  (l.takeWhile p).length

/-- Python `str.lstrip()`. -/
def pyLStrip (l : List Char) : List Char := l.dropWhile pyIsSpace

/-- Python `str.rstrip()`. -/
def pyRStrip (l : List Char) : List Char :=
  (l.reverse.dropWhile pyIsSpace).reverse

/-- Python `str.strip()`. -/
def pyStrip (l : List Char) : List Char := pyRStrip (pyLStrip l)

/-- Python `str.rstrip("\n")` (from the footer-styling branch). -/
def pyRStripNl (l : List Char) : List Char :=
  (l.reverse.dropWhile (· == '\n')).reverse

/-- Python `str.startswith(pre)`. -/
def pyStartsWith : List Char → List Char → Bool
  | _, [] => true
  | [], _ :: _ => false
  | c :: cs, d :: ds => c == d && pyStartsWith cs ds

/-- Count of leading plain spaces: `len(raw) - len(raw.lstrip(" "))`. -/
def leadingSpaces (l : List Char) : Nat :=
  (l.takeWhile (· == ' ')).length

/-- Worker for `splitlines`: accumulates the current line in reverse. -/
def splitlinesGo : List Char → List Char → List (List Char)
  | [], acc => if acc = [] then [] else [acc.reverse]
  | '\r' :: '\n' :: rest, acc => acc.reverse :: splitlinesGo rest []
  | c :: rest, acc =>
    if isLineBreak c then acc.reverse :: splitlinesGo rest []
    else splitlinesGo rest (c :: acc)

/-- Python `str.splitlines()`. -/
def splitlines (l : List Char) : List (List Char) := splitlinesGo l []

/-- Model of `HEADING_RE = re.compile(r"^(#{1,3})\s+(.*)")` applied with
`re.match`: on success returns (length of group 1, group 2).  `#{1,3}` is
greedy; for four or more leading `#` every backtracking choice leaves a `#`
where `\s+` must match, so the whole match fails. -/
def headingMatch (l : List Char) : Option (Nat × List Char) :=
  let h := countLeading (· == '#') l
  if 1 ≤ h ∧ h ≤ 3 then
    let rest := l.drop h
    if 0 < countLeading pyIsSpace rest then
      some (h, (rest.dropWhile pyIsSpace).takeWhile (· != '\n'))
    else none
  else none

/-- Model of a trailing `\s+(.+)` on a newline-free input: at least one
whitespace character must be consumed, and the group must be nonempty, the
greedy `\s+` backtracking by one character when everything after it is
whitespace. -/
def lastGroup (rest : List Char) : Option (List Char) :=
  let w := countLeading pyIsSpace rest
  if 0 < w ∧ 2 ≤ rest.length then
    some (rest.drop (min w (rest.length - 1)))
  else none

/-- Model of `CHECKBOX_RE = re.compile(r"^\s*[-*]\s+\[ \]\s+(.+)")` applied
with `re.match` to a line: on success returns group 1. -/
def checkboxMatch (l : List Char) : Option (List Char) :=
  match l.dropWhile pyIsSpace with
  | [] => none
  | c :: rest =>
    if c == '-' || c == '*' then
      let w1 := countLeading pyIsSpace rest
      if 0 < w1 then
        let rest2 := rest.drop w1
        if rest2.take 3 = ['[', ' ', ']'] then lastGroup (rest2.drop 3)
        else none
      else none
    else none

/-- Model of `BULLET_RE = re.compile(r"^\s*[-*]\s+(.+)")` applied with
`re.match` to a line: on success returns group 1. -/
def bulletMatch (l : List Char) : Option (List Char) :=
  match l.dropWhile pyIsSpace with
  | [] => none
  | c :: rest => if c == '-' || c == '*' then lastGroup rest else none

/-- Character class `[^:\s]` of `ASSIGNEE_RE`. -/
def assigneeTokenChar (c : Char) : Bool := !(c == ':') && !(pyIsSpace c)

/-- Model of `ASSIGNEE_RE.finditer` with
`ASSIGNEE_RE = re.compile(r"@[^:\s]+(?=:)")`: returns the list of
(start, end) spans of the non-overlapping leftmost matches; the colon is a
lookahead, so the next scan resumes at the colon.  `fuel` only bounds the
recursion; one unit is spent per step and each step consumes at least one
character, so `l.length` units always suffice. -/
def assigneeGo : Nat → List Char → Nat → List (Nat × Nat)
  | 0, _, _ => []
  | _ + 1, [], _ => []
  | fuel + 1, c :: rest, pos =>
    if c == '@' then
      let r := countLeading assigneeTokenChar rest
      if 0 < r ∧ rest.get? r = some ':' then
        (pos, pos + 1 + r) :: assigneeGo fuel (rest.drop r) (pos + 1 + r)
      else assigneeGo fuel rest (pos + 1)
    else assigneeGo fuel rest (pos + 1)

/-- All `ASSIGNEE_RE` match spans in a text. -/
def findAssignees (t : List Char) : List (Nat × Nat) := assigneeGo t.length t 0

/-- The block kinds produced by `parse_markdown` (the `"type"` dict field). -/
inductive BlockType
  | blank | heading1 | heading2 | heading3 | bullet | checkbox | paragraph
deriving DecidableEq, Inhabited

/-- A parsed block (the dicts built by `parse_markdown`).  Python omits the
`"level"` key for non-list blocks and reads it back with
`block.get("level", 0)`, so an absent level is modelled as `0`. -/
structure Block where
  type : BlockType
  text : List Char
  level : Nat
deriving DecidableEq, Inhabited

/-- The horizontal-rule line `"---"`. -/
def hrMarker : List Char := ['-', '-', '-']

/-- The `f"heading{level}"` block type for a heading depth of 1 to 3. -/
def headingTypeOf (k : Nat) : BlockType :=
  if k = 1 then .heading1 else if k = 2 then .heading2 else .heading3

/-- Classification of one line, following the body of the `for` loop in
`parse_markdown`: blank / `---` first, then `HEADING_RE` on the stripped
line, then `CHECKBOX_RE` and `BULLET_RE` on the raw line, else paragraph. -/
def classifyLine (line : List Char) : Block :=
  let stripped := pyStrip line
  if stripped = [] ∨ stripped = hrMarker then ⟨.blank, [], 0⟩
  else
    match headingMatch stripped with
    | some (lvl, g2) => ⟨headingTypeOf lvl, pyStrip g2, 0⟩
    | none =>
      match checkboxMatch line with
      | some g => ⟨.checkbox, pyStrip g, leadingSpaces line / 2⟩
      | none =>
        match bulletMatch line with
        | some g => ⟨.bullet, pyStrip g, leadingSpaces line / 2⟩
        | none => ⟨.paragraph, stripped, 0⟩

/-- `parse_markdown`: one block per `splitlines` line, in order. -/
def parse_markdown (t : List Char) : List Block :=
  (splitlines t).map classifyLine

/-- Worker for `extract_title`: the loop over `md_text.splitlines()`. -/
def titleFromLines : List (List Char) → List Char
  | [] => "Untitled Document".data
  | l :: ls =>
    match headingMatch (pyStrip l) with
    | some (1, g2) => pyStrip g2
    | _ => titleFromLines ls

/-- `extract_title`: the first depth-1 heading's text, else the fallback. -/
def extract_title (t : List Char) : List Char := titleFromLines (splitlines t)

/-- One `insertText` request (its 1-based location index and its text). -/
structure InsertOp where
  index : Nat
  text : List Char
deriving DecidableEq, Inhabited

/-- Worker for `build_insert_requests`: the loop with its running index. -/
def buildInsertGo : List Block → Nat → List InsertOp
  | [], _ => []
  | b :: bs, idx => ⟨idx, b.text ++ ['\n']⟩ :: buildInsertGo bs (idx + (b.text.length + 1))

/-- `build_insert_requests`: one insertion op per block, starting at index 1. -/
def build_insert_requests (blocks : List Block) : List InsertOp :=
  buildInsertGo blocks 1

/-- An RGB color dict, with channels as exact rationals. -/
structure RgbColor where
  red : ℚ
  green : ℚ
  blue : ℚ
deriving DecidableEq

/-- The rational 0, given by its reduced numerator and denominator. -/
def ratZero : ℚ := ⟨0, 1, by decide, by decide⟩

/-- The rational 2/5 (the decimal 0.4 of the source), in reduced form. -/
def ratTwoFifths : ℚ := ⟨2, 5, by decide, by decide⟩

/-- The rational 4/5 (the decimal 0.8 of the source), in reduced form. -/
def ratFourFifths : ℚ := ⟨4, 5, by decide, by decide⟩

/-- `ASSIGNEE_COLOR = {"red": 0.0, "green": 0.4, "blue": 0.8}`. -/
def ASSIGNEE_COLOR : RgbColor := ⟨ratZero, ratTwoFifths, ratFourFifths⟩

/-- `FOOTER_COLOR = {"red": 0.4, "green": 0.4, "blue": 0.4}`. -/
def FOOTER_COLOR : RgbColor := ⟨ratTwoFifths, ratTwoFifths, ratTwoFifths⟩

/-- `INDENT_PT = 18`. -/
def INDENT_PT : Nat := 18

/-- A paragraph-bearing content element of the fetched document body: its
`startIndex`, its `endIndex`, and its paragraph's `elements`, where an entry
is `some content` when the element has a `textRun` and `none` otherwise. -/
structure ParaElem where
  startIndex : Nat
  endIndex : Nat
  runs : List (Option (List Char))
deriving DecidableEq, Inhabited

/-- The paragraph text rebuilt from the `textRun` contents, as in the
`for el in p_data.get("elements", [])` loop. -/
def paraText (p : ParaElem) : List Char := (p.runs.filterMap id).flatten

/-- The paragraph-range listing: content elements that carry a paragraph,
kept in order (the filter at the top of `apply_formatting`). -/
def paragraphsOf (content : List (Option ParaElem)) : List ParaElem :=
  content.filterMap id

/-- The five request dict shapes `apply_formatting` builds.  The two
`updateParagraphStyle` shapes differ in their `fields` mask (the heading one
sets `namedStyleType` and zeroes both indents; the list one sets only the two
indents), and the two `updateTextStyle` shapes differ likewise
(`bold,foregroundColor` versus `italic,foregroundColor`). -/
inductive DocRequest
  | updateParagraphStyleHeading (startIndex endIndex : Nat) (namedStyleType : String)
  | deleteParagraphBullets (startIndex endIndex : Nat)
  | createParagraphBullets (startIndex endIndex : Nat) (bulletPreset : String)
  | updateParagraphStyleIndent (startIndex endIndex indentFirstLine indentStart : Nat)
  | updateTextStyleBold (startIndex endIndex : Nat) (bold : Bool) (color : RgbColor)
  | updateTextStyleItalic (startIndex endIndex : Nat) (italic : Bool) (color : RgbColor)
deriving DecidableEq

/-- The named style chosen for a heading block (`style = "HEADING_1"` with
the two overrides). -/
def headingStyleName : BlockType → String
  | .heading2 => "HEADING_2"
  | .heading3 => "HEADING_3"
  | _ => "HEADING_1"

/-- `btype.startswith("heading")` over the block types the parser emits. -/
def isHeadingType : BlockType → Bool
  | .heading1 | .heading2 | .heading3 => true
  | _ => false

/-- The paragraph-level requests for one reconciled pair (the heading branch
and the bullet/checkbox branch of the loop body). -/
def structuralRequests (b : Block) (s e : Nat) : List DocRequest :=
  if isHeadingType b.type then
    [.updateParagraphStyleHeading s e (headingStyleName b.type),
     .deleteParagraphBullets s e]
  else if b.type = .bullet ∨ b.type = .checkbox then
    [.createParagraphBullets s e
       (if b.type = .checkbox then "BULLET_CHECKBOX" else "BULLET_DISC_CIRCLE_SQUARE"),
     .updateParagraphStyleIndent s e (b.level * INDENT_PT) ((b.level + 1) * INDENT_PT)]
  else []

/-- The assignee-highlight requests over a paragraph's rebuilt text (the
`ASSIGNEE_RE.finditer` loop), offsets shifted by the paragraph start. -/
def assigneeRequests (s : Nat) (t : List Char) : List DocRequest :=
  (findAssignees t).map
    (fun m => .updateTextStyleBold (s + m.1) (s + m.2) true ASSIGNEE_COLOR)

/-- The two footer prefixes tested with `stripped.startswith`. -/
def FOOTER_1 : List Char := "Meeting recorded by:".data

/-- The second footer prefix. -/
def FOOTER_2 : List Char := "Duration:".data

/-- The footer-styling request for a paragraph (the final branch of the loop
body): one italic run over the text with trailing newlines stripped. -/
def footerRequests (s : Nat) (t : List Char) : List DocRequest :=
  if pyStartsWith (pyStrip t) FOOTER_1 || pyStartsWith (pyStrip t) FOOTER_2 then
    if 0 < (pyRStripNl t).length then
      [.updateTextStyleItalic s (s + (pyRStripNl t).length) true FOOTER_COLOR]
    else []
  else []

/-- The run-level requests for one reconciled pair.  When the paragraph's
rebuilt text strips to nothing the loop body hits `continue` and emits no
run-level request. -/
def textRequests (s : Nat) (p : ParaElem) : List DocRequest :=
  let t := paraText p
  if pyStrip t = [] then []
  else assigneeRequests s t ++ footerRequests s t

/-- Every request the loop body emits for the i-th reconciled pair. -/
def pairRequests (b : Block) (p : ParaElem) : List DocRequest :=
  structuralRequests b p.startIndex p.endIndex ++ textRequests p.startIndex p

/-- The full formatting batch of `apply_formatting`: the loop
`for i in range(min(len(blocks), len(paragraphs)))`, flattened in order. -/
def apply_formatting_requests (blocks : List Block) (paras : List ParaElem) :
    List DocRequest :=
  ((List.range (min blocks.length paras.length)).map
    (fun i => pairRequests (blocks.getD i default) (paras.getD i default))).flatten

/-- A remote service error (the `HttpError` message). -/
abbrev ApiError := List Char

/-- A remote document identifier. -/
abbrev DocId := List Char

/-- The black-box document service: the outcome of each remote call the
conversion can make, in the order the code makes them. -/
structure DocsService where
  createResult : Except ApiError DocId
  insertResult : Except ApiError Unit
  getResult : Except ApiError (List (Option ParaElem))
  formatResult : Except ApiError Unit

/-- The remote calls observable during one conversion.  `deleteDoc` is the
cleanup call the service would offer; the code never issues it. -/
inductive RemoteCall
  | createDoc | insertBatch | getDoc | formatBatch | deleteDoc
deriving DecidableEq

/-- `convert_to_google_doc`: create, insert, re-fetch, format, each remote
failure short-circuiting to `none` (the single outermost `except HttpError`
handler returning `None`).  The formatting batch is submitted only when the
request list is nonempty (`if requests:`).  Alongside the result, the list of
remote calls issued, in order, is returned. -/
def convert_to_google_doc (md : List Char) (title? : Option (List Char))
    (svc : DocsService) : Option DocId × List RemoteCall :=
  let _title := title?.getD (extract_title md)
  match svc.createResult with
  | .error _ => (none, [.createDoc])
  | .ok docId =>
    let blocks := parse_markdown md
    let _inserts := build_insert_requests blocks
    match svc.insertResult with
    | .error _ => (none, [.createDoc, .insertBatch])
    | .ok _ =>
      match svc.getResult with
      | .error _ => (none, [.createDoc, .insertBatch, .getDoc])
      | .ok content =>
        let reqs := apply_formatting_requests blocks (paragraphsOf content)
        if reqs = [] then (some docId, [.createDoc, .insertBatch, .getDoc])
        else
          match svc.formatResult with
          | .error _ => (none, [.createDoc, .insertBatch, .getDoc, .formatBatch])
          | .ok _ => (some docId, [.createDoc, .insertBatch, .getDoc, .formatBatch])

/-- Recognizer for the assignee request shape (`fields = "bold,foregroundColor"`). -/
def isTextBoldReq : DocRequest → Bool
  | .updateTextStyleBold _ _ _ _ => true
  | _ => false

/-- Recognizer for the footer request shape (`fields = "italic,foregroundColor"`). -/
def isTextItalicReq : DocRequest → Bool
  | .updateTextStyleItalic _ _ _ _ => true
  | _ => false

/-- Recognizer for paragraph-level requests (heading style, bullet creation
or deletion, indentation). -/
def isParagraphReq : DocRequest → Bool
  | .updateParagraphStyleHeading _ _ _ => true
  | .deleteParagraphBullets _ _ => true
  | .createParagraphBullets _ _ _ => true
  | .updateParagraphStyleIndent _ _ _ _ => true
  | _ => false

/-- The text of a line when it is a heading of depth exactly 1, else `none`
(the loop condition `m and len(m.group(1)) == 1` of `extract_title`). -/
def h1Text? (l : List Char) : Option (List Char) :=
  match headingMatch (pyStrip l) with
  | some (1, g2) => some (pyStrip g2)
  | _ => none

lemma dropWhile_head_neg {p : Char → Bool} {l : List Char} {c : Char}
    {r : List Char} (h : l.dropWhile p = c :: r) : p c = false := by
  induction l with
  | nil => simp at h
  | cons a l ih =>
    rw [List.dropWhile_cons] at h
    by_cases hp : p a
    · exact ih (by simpa [hp] using h)
    · obtain ⟨rfl, -⟩ := List.cons.inj (by simpa [hp] using h)
      simpa using hp

lemma mem_dropWhile_of_neg {p : Char → Bool} {l : List Char} {x : Char}
    (hx : x ∈ l) (hp : p x = false) : x ∈ l.dropWhile p := by
  have := List.takeWhile_append_dropWhile p l
  rcases List.mem_append.1 (this ▸ hx) with h | h
  · have := List.mem_takeWhile_imp h
    simp [hp] at this
  · exact h

lemma mem_of_mem_dropWhile {p : Char → Bool} {l : List Char} {x : Char}
    (hx : x ∈ l.dropWhile p) : x ∈ l :=
  (List.dropWhile_sublist p).subset hx

lemma pyRStrip_cons {c : Char} (hc : pyIsSpace c = false) (l : List Char) :
    pyRStrip (c :: l) = c :: pyRStrip l := by
  unfold pyRStrip
  rw [List.reverse_cons, List.dropWhile_append]
  by_cases h : (l.reverse.dropWhile pyIsSpace).isEmpty
  · simp only [h, if_pos]
    rw [List.isEmpty_iff] at h
    simp [h, List.dropWhile_cons, hc]
  · simp [h]

lemma mem_pyRStrip {l : List Char} {x : Char} (hx : x ∈ l)
    (hp : pyIsSpace x = false) : x ∈ pyRStrip l := by
  unfold pyRStrip
  rw [List.mem_reverse]
  exact mem_dropWhile_of_neg (List.mem_reverse.2 hx) hp

lemma mem_of_mem_pyRStrip {l : List Char} {x : Char} (hx : x ∈ pyRStrip l) :
    x ∈ l := by
  unfold pyRStrip at hx
  rw [List.mem_reverse] at hx
  exact List.mem_reverse.1 (mem_of_mem_dropWhile hx)

lemma pyStrip_eq_rstrip_dropWhile (l : List Char) :
    pyStrip l = pyRStrip (l.dropWhile pyIsSpace) := rfl

lemma mem_pyStrip {l : List Char} {x : Char} (hx : x ∈ l)
    (hp : pyIsSpace x = false) : x ∈ pyStrip l :=
  mem_pyRStrip (mem_dropWhile_of_neg hx hp) hp

lemma mem_of_mem_pyStrip {l : List Char} {x : Char} (hx : x ∈ pyStrip l) :
    x ∈ l :=
  mem_of_mem_dropWhile (mem_of_mem_pyRStrip hx)

lemma pyStrip_eq_nil_imp {l : List Char} (h : pyStrip l = []) :
    ∀ x ∈ l, pyIsSpace x = true := by
  intro x hx
  by_contra hns
  have := mem_pyStrip hx (by simpa using hns)
  simp [h] at this

lemma pyStrip_head_not_space {l : List Char} {c : Char} {r : List Char}
    (h : pyStrip l = c :: r) : pyIsSpace c = false := by
  rw [pyStrip_eq_rstrip_dropWhile] at h
  rcases hd : l.dropWhile pyIsSpace with _ | ⟨a, rest⟩
  · rw [hd] at h; simp [pyRStrip] at h
  · have ha : pyIsSpace a = false := dropWhile_head_neg hd
    rw [hd, pyRStrip_cons ha] at h
    obtain ⟨rfl, -⟩ := List.cons.inj h
    exact ha

lemma pyRStripNl_eq_nil_imp {l : List Char} (h : pyRStripNl l = []) :
    ∀ x ∈ l, x = '\n' := by
  intro x hx
  unfold pyRStripNl at h
  rw [List.reverse_eq_nil_iff, List.dropWhile_eq_nil_iff] at h
  simpa using h x (List.mem_reverse.2 hx)

lemma pyRStripNl_ne_nil {l : List Char} {c : Char} {r : List Char}
    (h : pyStrip l = c :: r) : pyRStripNl l ≠ [] := by
  intro hnil
  have hc : c ∈ l := mem_of_mem_pyStrip (h ▸ List.mem_cons_self c r)
  have h1 : c = '\n' := pyRStripNl_eq_nil_imp hnil c hc
  have h2 : pyIsSpace c = false := pyStrip_head_not_space h
  rw [h1] at h2
  exact absurd h2 (by decide)

lemma assigneeGo_all_space :
    ∀ (fuel : Nat) (l : List Char) (pos : Nat),
      (∀ x ∈ l, pyIsSpace x = true) → assigneeGo fuel l pos = [] := by
  intro fuel
  induction fuel with
  | zero => intro l pos _; rfl
  | succ fuel ih =>
    intro l pos hl
    cases l with
    | nil => rfl
    | cons c rest =>
      have hc : pyIsSpace c = true := hl c (List.mem_cons_self c rest)
      have hc' : (c == '@') = false := by
        rcases Bool.eq_false_or_eq_true (c == '@') with h | h
        · rw [beq_iff_eq] at h; rw [h] at hc; exact absurd hc (by decide)
        · exact h
      simp only [assigneeGo, hc', Bool.false_eq_true, if_false]
      exact ih rest (pos + 1) (fun x hx => hl x (List.mem_cons_of_mem c hx))

lemma findAssignees_of_strip_nil {t : List Char} (h : pyStrip t = []) :
    findAssignees t = [] :=
  assigneeGo_all_space t.length t 0 (pyStrip_eq_nil_imp h)

lemma structuralRequests_filter_bold (b : Block) (s e : Nat) :
    (structuralRequests b s e).filter isTextBoldReq = [] := by
  unfold structuralRequests
  split_ifs <;> rfl

lemma structuralRequests_filter_italic (b : Block) (s e : Nat) :
    (structuralRequests b s e).filter isTextItalicReq = [] := by
  unfold structuralRequests
  split_ifs <;> rfl

lemma assigneeRequests_filter_bold (s : Nat) (t : List Char) :
    (assigneeRequests s t).filter isTextBoldReq = assigneeRequests s t := by
  unfold assigneeRequests
  induction findAssignees t with
  | nil => rfl
  | cons m L ih => simpa [isTextBoldReq] using ih

lemma assigneeRequests_filter_italic (s : Nat) (t : List Char) :
    (assigneeRequests s t).filter isTextItalicReq = [] := by
  unfold assigneeRequests
  induction findAssignees t with
  | nil => rfl
  | cons m L ih => simpa [isTextItalicReq] using ih

lemma assigneeRequests_filter_paragraph (s : Nat) (t : List Char) :
    (assigneeRequests s t).filter isParagraphReq = [] := by
  unfold assigneeRequests
  induction findAssignees t with
  | nil => rfl
  | cons m L ih => simpa [isParagraphReq] using ih

lemma footerRequests_filter_bold (s : Nat) (t : List Char) :
    (footerRequests s t).filter isTextBoldReq = [] := by
  unfold footerRequests
  split_ifs <;> rfl

lemma footerRequests_filter_italic (s : Nat) (t : List Char) :
    (footerRequests s t).filter isTextItalicReq = footerRequests s t := by
  unfold footerRequests
  split_ifs <;> rfl

lemma footerRequests_filter_paragraph (s : Nat) (t : List Char) :
    (footerRequests s t).filter isParagraphReq = [] := by
  unfold footerRequests
  split_ifs <;> rfl

lemma getD_indep {α : Type} {l : List α} {i : Nat} (h : i < l.length)
    (d₁ d₂ : α) : l.getD i d₁ = l.getD i d₂ := by
  rw [List.getD_eq_getElem l d₁ h, List.getD_eq_getElem l d₂ h]

lemma take_sum_le (m : List Nat) : ∀ {i j : Nat}, i ≤ j →
    (m.take i).sum ≤ (m.take j).sum := by
  induction m with
  | nil => intro i j _; simp
  | cons a m ih =>
    intro i j hij
    cases i with
    | zero => simp
    | succ i =>
      cases j with
      | zero => omega
      | succ j => simpa using ih (Nat.le_of_succ_le_succ hij)

lemma take_sum_succ (m : List Nat) : ∀ {i : Nat}, i < m.length →
    (m.take (i + 1)).sum = (m.take i).sum + m.getD i 0 := by
  induction m with
  | nil => intro i h; simp at h
  | cons a m ih =>
    intro i hi
    cases i with
    | zero => simp
    | succ i =>
      have := ih (Nat.lt_of_succ_lt_succ hi)
      simp only [List.take_succ_cons, List.sum_cons, List.getD_cons_succ, this]
      omega

lemma getD_map_fun {α β : Type} (f : α → β) (l : List α) (d : α) :
    ∀ i, (l.map f).getD i (f d) = f (l.getD i d) := by
  induction l with
  | nil => intro i; cases i <;> rfl
  | cons a l ih => intro i; cases i <;> simp [ih]

lemma getD_len_map : ∀ (bs : List Block) {i : Nat}, i < bs.length →
    (bs.map (fun b => b.text.length + 1)).getD i 0 =
      (bs.getD i default).text.length + 1 := by
  intro bs
  induction bs with
  | nil => intro i h; simp at h
  | cons b bs ih =>
    intro i hi
    cases i with
    | zero => rfl
    | succ i =>
      simp only [List.map_cons, List.getD_cons_succ]
      exact ih (by simp at hi; omega)

lemma pairRequests_filter_bold (b : Block) (p : ParaElem) :
    (pairRequests b p).filter isTextBoldReq =
      assigneeRequests p.startIndex (paraText p) := by
  unfold pairRequests textRequests
  rw [List.filter_append, structuralRequests_filter_bold]
  by_cases hs : pyStrip (paraText p) = []
  · rw [if_pos hs, List.filter_nil, List.nil_append]
    unfold assigneeRequests
    rw [findAssignees_of_strip_nil hs, List.map_nil]
  · rw [if_neg hs, List.filter_append, assigneeRequests_filter_bold,
      footerRequests_filter_bold, List.append_nil, List.nil_append]

lemma pairRequests_filter_italic (b : Block) (p : ParaElem) :
    (pairRequests b p).filter isTextItalicReq =
      (if pyStrip (paraText p) = [] then []
       else footerRequests p.startIndex (paraText p)) := by
  unfold pairRequests textRequests
  rw [List.filter_append, structuralRequests_filter_italic]
  by_cases hs : pyStrip (paraText p) = []
  · rw [if_pos hs, if_pos hs, List.filter_nil, List.nil_append]
  · rw [if_neg hs, if_neg hs, List.filter_append,
      assigneeRequests_filter_italic, footerRequests_filter_italic,
      List.nil_append, List.nil_append]

lemma pairRequests_filter_paragraph_of_blank {b : Block} (p : ParaElem)
    (hb : b.type = .blank) :
    (pairRequests b p).filter isParagraphReq = [] := by
  unfold pairRequests structuralRequests textRequests
  rw [hb]
  simp only [isHeadingType, Bool.false_eq_true, if_false, reduceCtorEq,
    or_self, List.nil_append]
  by_cases hs : pyStrip (paraText p) = []
  · rw [if_pos hs, List.filter_nil]
  · rw [if_neg hs, List.filter_append, assigneeRequests_filter_paragraph,
      footerRequests_filter_paragraph, List.append_nil]

lemma range_min_map_eq_zip_map {α β γ : Type} [Inhabited α] [Inhabited β]
    (f : α → β → List γ) :
    ∀ (bs : List α) (ps : List β),
      ((List.range (min bs.length ps.length)).map
        (fun i => f (bs.getD i default) (ps.getD i default))).flatten =
      ((bs.zip ps).map (fun bp => f bp.1 bp.2)).flatten := by
  intro bs
  induction bs with
  | nil => intro ps; simp
  | cons b bs ih =>
    intro ps
    cases ps with
    | nil => simp
    | cons p ps =>
      simp only [List.length_cons, Nat.succ_min_succ, List.range_succ_eq_map,
        List.map_cons, List.map_map, List.zip_cons_cons, List.flatten_cons]
      rw [← ih ps]
      congr 1

lemma zip_length {α β : Type} (bs : List α) (ps : List β) :
    (bs.zip ps).length = min bs.length ps.length := by
  simp

lemma zip_getD {α β : Type} [Inhabited α] [Inhabited β] :
    ∀ (bs : List α) (ps : List β) (i : Nat),
      i < min bs.length ps.length →
      (bs.zip ps).getD i default = (bs.getD i default, ps.getD i default) := by
  intro bs
  induction bs with
  | nil => intro ps i h; simp at h
  | cons b bs ih =>
    intro ps i h
    cases ps with
    | nil => simp at h
    | cons p ps =>
      cases i with
      | zero => rfl
      | succ i =>
        simp only [List.zip_cons_cons, List.getD_cons_succ]
        exact ih ps i (by simp at h ⊢; omega)

lemma buildInsertGo_length : ∀ (bs : List Block) (s : Nat),
    (buildInsertGo bs s).length = bs.length := by
  intro bs
  induction bs with
  | nil => intro s; rfl
  | cons b bs ih => intro s; simp [buildInsertGo, ih]

lemma buildInsertGo_getD : ∀ (bs : List Block) (s i : Nat), i < bs.length →
    (buildInsertGo bs s).getD i default =
      ⟨s + ((bs.take i).map (fun b => b.text.length + 1)).sum,
       (bs.getD i default).text ++ ['\n']⟩ := by
  intro bs
  induction bs with
  | nil => intro s i h; simp at h
  | cons b bs ih =>
    intro s i hi
    cases i with
    | zero => simp [buildInsertGo]
    | succ i =>
      have hlt : i < bs.length := by simp at hi; omega
      simp only [buildInsertGo, List.getD_cons_succ,
        ih (s + (b.text.length + 1)) i hlt,
        List.take_succ_cons, List.map_cons, List.sum_cons]
      congr 1
      omega

lemma classifyLine_nil : classifyLine [] = default := by decide

lemma getD_map_classifyLine (l : List (List Char)) :
    ∀ i, (l.map classifyLine).getD i default = classifyLine (l.getD i []) := by
  induction l with
  | nil => intro i; rw [List.map_nil, List.getD_nil, List.getD_nil, classifyLine_nil]
  | cons a l ih =>
    intro i
    cases i with
    | zero => rfl
    | succ n => rw [List.map_cons, List.getD_cons_succ, List.getD_cons_succ]; exact ih n

/-- Claim C1: range reconciliation is a positional join: the formatting batch
is exactly the flattening of per-pair requests over `blocks.zip paras`, the
zip has exactly `min (len blocks) (len paras)` pairs, and the i-th pair joins
the i-th block with the i-th remote range; trailing unmatched blocks or
ranges contribute no request, and a length mismatch is not an error (the
function is total). -/
theorem claim_C1 (blocks : List Block) (paras : List ParaElem) :
    apply_formatting_requests blocks paras =
      ((blocks.zip paras).map (fun bp => pairRequests bp.1 bp.2)).flatten ∧
    (blocks.zip paras).length = min blocks.length paras.length ∧
    (∀ i, i < min blocks.length paras.length →
      (blocks.zip paras).getD i default =
        (blocks.getD i default, paras.getD i default)) := by
  refine ⟨?_, zip_length blocks paras, fun i hi => zip_getD blocks paras i hi⟩
  unfold apply_formatting_requests
  exact range_min_map_eq_zip_map pairRequests blocks paras

/-- Witness for C1 at 5 local blocks and 3 remote ranges: the third
reconciled pair exists and joins the third block with the third range. -/
theorem claim_C1_witness :
    (([⟨.paragraph, ['a'], 0⟩, ⟨.paragraph, ['b'], 0⟩, ⟨.paragraph, ['c'], 0⟩,
       ⟨.paragraph, ['d'], 0⟩, ⟨.paragraph, ['e'], 0⟩] : List Block).zip
      ([⟨1, 3, []⟩, ⟨3, 5, []⟩, ⟨5, 7, []⟩] : List ParaElem)).getD 2 default =
      (⟨.paragraph, ['c'], 0⟩, ⟨5, 7, []⟩) :=
  (claim_C1 _ _).2.2 2 (by decide)

/-- Claim C2: `parse_markdown` yields one block per `splitlines` line, in
source order, and every empty-or-whitespace-only line yields a blank block
with empty text. -/
theorem claim_C2 (t : List Char) :
    (parse_markdown t).length = (splitlines t).length ∧
    (∀ i, (parse_markdown t).getD i default =
      classifyLine ((splitlines t).getD i [])) ∧
    (∀ line ∈ splitlines t, pyStrip line = [] →
      classifyLine line = ⟨.blank, [], 0⟩) := by
  refine ⟨by simp [parse_markdown],
    fun i => getD_map_classifyLine (splitlines t) i, ?_⟩
  intro line _ hs
  simp [classifyLine, hs]

/-- Witness for C2: the whitespace-only middle line of a concrete text is a
member of its lines, strips to nothing, and classifies as a blank block. -/
theorem claim_C2_witness :
    classifyLine [' ', '\t'] = ⟨.blank, [], 0⟩ :=
  (claim_C2 "a\n \t\nb".data).2.2 [' ', '\t'] (by decide) (by decide)

/-- Claim C3: the insertion plan has one op per block in order, the i-th
op's text being the i-th block's text plus one newline and its index being
`1 + sum of (len(text_j) + 1) over j < i`; indices are strictly increasing
and the ops do not overlap. -/
theorem claim_C3 (blocks : List Block) :
    (build_insert_requests blocks).length = blocks.length ∧
    (∀ i, i < blocks.length →
      (build_insert_requests blocks).getD i default =
        ⟨1 + ((blocks.take i).map (fun b => b.text.length + 1)).sum,
         (blocks.getD i default).text ++ ['\n']⟩) ∧
    (∀ i j, i < j → j < blocks.length →
      ((build_insert_requests blocks).getD i default).index <
        ((build_insert_requests blocks).getD j default).index ∧
      ((build_insert_requests blocks).getD i default).index +
          ((build_insert_requests blocks).getD i default).text.length ≤
        ((build_insert_requests blocks).getD j default).index) := by
  refine ⟨buildInsertGo_length blocks 1,
    fun i hi => buildInsertGo_getD blocks 1 i hi, ?_⟩
  intro i j hij hj
  have hi : i < blocks.length := Nat.lt_trans hij hj
  unfold build_insert_requests
  rw [buildInsertGo_getD blocks 1 i hi, buildInsertGo_getD blocks 1 j hj]
  have hmt : ∀ k, ((blocks.take k).map (fun b => b.text.length + 1)).sum =
      ((blocks.map (fun b => b.text.length + 1)).take k).sum :=
    fun k => by rw [List.map_take]
  have hilen : i < (blocks.map (fun b => b.text.length + 1)).length := by
    simpa using hi
  have e1 : (blocks.map (fun b => b.text.length + 1)).getD i 0 =
      (blocks.getD i default).text.length + 1 := getD_len_map blocks hi
  have e2 : ((blocks.getD i default).text ++ ['\n']).length =
      (blocks.getD i default).text.length + 1 := by simp
  have hsucc := take_sum_succ (blocks.map (fun b => b.text.length + 1)) hilen
  have hle := take_sum_le (blocks.map (fun b => b.text.length + 1))
    (show i + 1 ≤ j from hij)
  simp only [hmt i, hmt j]
  omega

/-- Witness for C3 at two concrete blocks: the second op's index follows the
offset formula, and the first op precedes the second without overlap. -/
theorem claim_C3_witness :
    ((build_insert_requests [⟨.blank, [], 0⟩, ⟨.paragraph, ['a'], 0⟩]).getD 1
        default =
      ⟨1 + ((([⟨.blank, [], 0⟩, ⟨.paragraph, ['a'], 0⟩] : List Block).take 1).map
          (fun b => b.text.length + 1)).sum,
       (([⟨.blank, [], 0⟩, ⟨.paragraph, ['a'], 0⟩] : List Block).getD 1
          default).text ++ ['\n']⟩) ∧
    (((build_insert_requests [⟨.blank, [], 0⟩, ⟨.paragraph, ['a'], 0⟩]).getD 0
          default).index <
        ((build_insert_requests [⟨.blank, [], 0⟩, ⟨.paragraph, ['a'], 0⟩]).getD 1
          default).index ∧
      ((build_insert_requests [⟨.blank, [], 0⟩, ⟨.paragraph, ['a'], 0⟩]).getD 0
            default).index +
          ((build_insert_requests [⟨.blank, [], 0⟩, ⟨.paragraph, ['a'], 0⟩]).getD 0
            default).text.length ≤
        ((build_insert_requests [⟨.blank, [], 0⟩, ⟨.paragraph, ['a'], 0⟩]).getD 1
          default).index) :=
  ⟨(claim_C3 [⟨.blank, [], 0⟩, ⟨.paragraph, ['a'], 0⟩]).2.1 1 (by decide),
   (claim_C3 [⟨.blank, [], 0⟩, ⟨.paragraph, ['a'], 0⟩]).2.2 0 1 (by decide)
     (by decide)⟩

lemma convert_trace_cases (md : List Char) (title? : Option (List Char))
    (svc : DocsService) :
    (convert_to_google_doc md title? svc).2 = [.createDoc] ∨
    (convert_to_google_doc md title? svc).2 = [.createDoc, .insertBatch] ∨
    (convert_to_google_doc md title? svc).2 =
      [.createDoc, .insertBatch, .getDoc] ∨
    (convert_to_google_doc md title? svc).2 =
      [.createDoc, .insertBatch, .getDoc, .formatBatch] := by
  rcases hc : svc.createResult with e | d
  · left; simp [convert_to_google_doc, hc]
  · rcases hi : svc.insertResult with e | u
    · right; left; simp [convert_to_google_doc, hc, hi]
    · rcases hg : svc.getResult with e | content
      · right; right; left; simp [convert_to_google_doc, hc, hi, hg]
      · by_cases hr : apply_formatting_requests (parse_markdown md)
            (paragraphsOf content) = []
        · right; right; left; simp [convert_to_google_doc, hc, hi, hg, hr]
        · rcases hf : svc.formatResult with e | u' <;>
            (right; right; right; simp [convert_to_google_doc, hc, hi, hg, hr, hf])

/-- Claim C4: whenever any remote document-service call fails (creation, the
insertion batch, the structure re-fetch, or the formatting batch when it is
submitted), the conversion returns `none` — no document identifier — having
issued exactly the calls up to and including the failing one; the trace never
contains a retry (it has no duplicate call) and never contains the cleanup
call `deleteDoc`. -/
theorem claim_C4 (md : List Char) (title? : Option (List Char))
    (svc : DocsService) :
    (∀ e, svc.createResult = .error e →
      convert_to_google_doc md title? svc = (none, [.createDoc])) ∧
    (∀ d e, svc.createResult = .ok d → svc.insertResult = .error e →
      convert_to_google_doc md title? svc = (none, [.createDoc, .insertBatch])) ∧
    (∀ d e, svc.createResult = .ok d → svc.insertResult = .ok () →
      svc.getResult = .error e →
      convert_to_google_doc md title? svc =
        (none, [.createDoc, .insertBatch, .getDoc])) ∧
    (∀ d c e, svc.createResult = .ok d → svc.insertResult = .ok () →
      svc.getResult = .ok c → svc.formatResult = .error e →
      apply_formatting_requests (parse_markdown md) (paragraphsOf c) ≠ [] →
      convert_to_google_doc md title? svc =
        (none, [.createDoc, .insertBatch, .getDoc, .formatBatch])) ∧
    RemoteCall.deleteDoc ∉ (convert_to_google_doc md title? svc).2 ∧
    (convert_to_google_doc md title? svc).2.Nodup := by
  refine ⟨?_, ?_, ?_, ?_, ?_, ?_⟩
  · intro e h; simp [convert_to_google_doc, h]
  · intro d e h1 h2; simp [convert_to_google_doc, h1, h2]
  · intro d e h1 h2 h3; simp [convert_to_google_doc, h1, h2, h3]
  · intro d c e h1 h2 h3 h4 h5
    simp [convert_to_google_doc, h1, h2, h3, h4, h5]
  · rcases convert_trace_cases md title? svc with h | h | h | h <;>
      rw [h] <;> decide
  · rcases convert_trace_cases md title? svc with h | h | h | h <;>
      rw [h] <;> decide

/-- Witness for C4: a service whose creation call fails makes the conversion
return no document identifier, with creation the only call issued. -/
theorem claim_C4_witness :
    convert_to_google_doc [] none ⟨.error ['x'], .ok (), .ok [], .ok ()⟩ =
      (none, [.createDoc]) :=
  (claim_C4 [] none ⟨.error ['x'], .ok (), .ok [], .ok ()⟩).1 ['x'] rfl

/-- Claim C7: the assignee requests of a reconciled paragraph are exactly one
bold-plus-accent-color run per `ASSIGNEE_RE` match of the remotely fetched
text, over exactly the match span shifted by the paragraph start (the colon
is excluded by the lookahead); a paragraph with zero matches gets none.  On
`"@sarah: Finalize Q3 roadmap"` the single match span is `[0, 6)`, exactly
`"@sarah"`. -/
theorem claim_C7 (b : Block) (p : ParaElem) :
    (pairRequests b p).filter isTextBoldReq =
      (findAssignees (paraText p)).map
        (fun m => .updateTextStyleBold (p.startIndex + m.1)
          (p.startIndex + m.2) true ASSIGNEE_COLOR) ∧
    findAssignees "@sarah: Finalize Q3 roadmap".data = [(0, 6)] ∧
    (findAssignees (paraText p) = [] →
      (pairRequests b p).filter isTextBoldReq = []) := by
  refine ⟨pairRequests_filter_bold b p, by decide, ?_⟩
  intro h
  rw [pairRequests_filter_bold b p]
  unfold assigneeRequests
  rw [h, List.map_nil]

/-- Witness for C7: a paragraph whose fetched text has no assignee match
receives no bold run request. -/
theorem claim_C7_witness :
    (pairRequests ⟨.paragraph, ['h', 'i'], 0⟩
      ⟨1, 4, [some ['h', 'i', '\n']]⟩).filter isTextBoldReq = [] :=
  (claim_C7 ⟨.paragraph, ['h', 'i'], 0⟩ ⟨1, 4, [some ['h', 'i', '\n']]⟩).2.2
    (by decide)

/-- Claim C8: a reconciled paragraph whose trimmed fetched text starts with
`"Meeting recorded by:"` or `"Duration:"` gets exactly one italic-plus-muted
run over its full trailing-newline-stripped text (never skipped: the length
is provably nonzero there), and a paragraph starting with neither prefix gets
no italic run; concretely `"Duration: 45 minutes"` is styled over its full
length and `"Random: not a footer"` is not styled. -/
theorem claim_C8 (b : Block) (p : ParaElem) :
    (pairRequests b p).filter isTextItalicReq =
      (if pyStartsWith (pyStrip (paraText p)) FOOTER_1 ||
          pyStartsWith (pyStrip (paraText p)) FOOTER_2 then
        [.updateTextStyleItalic p.startIndex
          (p.startIndex + (pyRStripNl (paraText p)).length) true FOOTER_COLOR]
      else []) ∧
    pairRequests ⟨.paragraph, [], 0⟩
        ⟨1, 22, [some "Duration: 45 minutes\n".data]⟩ =
      [.updateTextStyleItalic 1 21 true FOOTER_COLOR] ∧
    pairRequests ⟨.paragraph, [], 0⟩
        ⟨1, 22, [some "Random: not a footer\n".data]⟩ = [] := by
  refine ⟨?_, by decide, by decide⟩
  rw [pairRequests_filter_italic b p]
  by_cases hs : pyStrip (paraText p) = []
  · rw [if_pos hs, hs]
    have hcond : (pyStartsWith [] FOOTER_1 || pyStartsWith [] FOOTER_2) = false := by
      decide
    simp [hcond]
  · rw [if_neg hs]
    unfold footerRequests
    by_cases hcond : (pyStartsWith (pyStrip (paraText p)) FOOTER_1 ||
        pyStartsWith (pyStrip (paraText p)) FOOTER_2) = true
    · rw [if_pos hcond, if_pos hcond]
      obtain ⟨c, r, hcr⟩ : ∃ c r, pyStrip (paraText p) = c :: r := by
        cases h : pyStrip (paraText p) with
        | nil => exact absurd h hs
        | cons c r => exact ⟨c, r, rfl⟩
      have : 0 < (pyRStripNl (paraText p)).length :=
        List.length_pos.2 (pyRStripNl_ne_nil hcr)
      rw [if_pos this]
    · rw [if_neg hcond, if_neg hcond]

/-- Claim C10: a reconciled pair whose block is blank receives no
paragraph-level request, and when its fetched text trims to nothing it
receives no request at all (the run-level branch is skipped too). -/
theorem claim_C10 (b : Block) (p : ParaElem) (hb : b.type = .blank) :
    (pairRequests b p).filter isParagraphReq = [] ∧
    (pyStrip (paraText p) = [] → pairRequests b p = []) := by
  refine ⟨pairRequests_filter_paragraph_of_blank p hb, ?_⟩
  intro hs
  unfold pairRequests structuralRequests textRequests
  rw [hb]
  simp [isHeadingType, hs]

/-- Witness for C10: a blank block paired with a newline-only remote
paragraph produces no paragraph-level request and no request at all. -/
theorem claim_C10_witness :
    (pairRequests ⟨.blank, [], 0⟩ ⟨5, 6, [some ['\n']]⟩).filter isParagraphReq
        = [] ∧
    pairRequests ⟨.blank, [], 0⟩ ⟨5, 6, [some ['\n']]⟩ = [] :=
  ⟨(claim_C10 ⟨.blank, [], 0⟩ ⟨5, 6, [some ['\n']]⟩ rfl).1,
   (claim_C10 ⟨.blank, [], 0⟩ ⟨5, 6, [some ['\n']]⟩ rfl).2 (by decide)⟩

/-- Claim C9: `extract_title` returns the text of the first line whose
heading depth is exactly 1, and the fixed fallback `"Untitled Document"`
when no depth-1 heading exists; it skips depth-2 and depth-3 headings, as on
`"## Not title\n# Real Title\n"`. -/
theorem claim_C9 :
    (∀ t, extract_title t =
      ((splitlines t).findSome? h1Text?).getD "Untitled Document".data) ∧
    extract_title "## Not title\n# Real Title\n".data = "Real Title".data ∧
    extract_title "no headings here\n".data = "Untitled Document".data := by
  refine ⟨fun t => ?_, by decide, by decide⟩
  unfold extract_title
  induction splitlines t with
  | nil => rfl
  | cons l ls ih =>
    cases hm : headingMatch (pyStrip l) with
    | none => simp [titleFromLines, h1Text?, hm, List.findSome?_cons, ih]
    | some kg =>
      obtain ⟨k, g⟩ := kg
      match k with
      | 0 => simp [titleFromLines, h1Text?, hm, List.findSome?_cons, ih]
      | 1 => simp [titleFromLines, h1Text?, hm, List.findSome?_cons]
      | k + 2 => simp [titleFromLines, h1Text?, hm, List.findSome?_cons, ih]

/-- Counterexample to C5 as stated: the line `" # T"` (one leading space) is
neither empty nor the rule marker and does not match `^(#{1,3})\s+(.*)` (the
anchor is the start of the line), yet the parser classifies it as a depth-1
heading, because the code applies the regex to the stripped line. -/
theorem claim_C5_counterexample :
    headingMatch " # T".data = none ∧
    pyStrip " # T".data ≠ [] ∧ pyStrip " # T".data ≠ hrMarker ∧
    parse_markdown " # T".data = [⟨.heading1, ['T'], 0⟩] := by
  decide

/-- Claim C5 (amended): a non-blank, non-rule line is classified as a heading
exactly when its whitespace-stripped form matches `^(#{1,3})\s+(.*)`, the
depth being the number of leading `#` of the stripped line (1 to 3) and the
text the remainder trimmed; `"# Title"` gives heading1 `"Title"` and
`"## Sub"` gives heading2 `"Sub"`. -/
theorem claim_C5_amended :
    (∀ line k g, pyStrip line ≠ [] → pyStrip line ≠ hrMarker →
      headingMatch (pyStrip line) = some (k, g) →
      classifyLine line = ⟨headingTypeOf k, pyStrip g, 0⟩ ∧
      k = countLeading (· == '#') (pyStrip line) ∧ 1 ≤ k ∧ k ≤ 3) ∧
    (∀ line, pyStrip line ≠ [] → pyStrip line ≠ hrMarker →
      headingMatch (pyStrip line) = none →
      isHeadingType (classifyLine line).type = false) ∧
    parse_markdown "# Title".data = [⟨.heading1, "Title".data, 0⟩] ∧
    parse_markdown "## Sub".data = [⟨.heading2, "Sub".data, 0⟩] := by
  refine ⟨?_, ?_, by decide, by decide⟩
  · intro line k g h1 h2 hm
    refine ⟨by simp [classifyLine, h1, h2, hm], ?_⟩
    simp only [headingMatch] at hm
    split_ifs at hm with hc1 hc2
    obtain ⟨hk, -⟩ := Prod.mk.inj (Option.some.inj hm)
    exact ⟨hk.symm, hk ▸ hc1.1, hk ▸ hc1.2⟩
  · intro line h1 h2 hm
    simp only [classifyLine, h1, h2, hm]
    rcases hcb : checkboxMatch line with _ | g
    · rcases hbl : bulletMatch line with _ | g'
      · simp [hcb, hbl, isHeadingType]
      · simp [hcb, hbl, isHeadingType]
    · simp [hcb, isHeadingType]

/-- Witness for the amended C5 at the line `"# Title"`. -/
theorem claim_C5_witness :
    classifyLine "# Title".data =
      ⟨headingTypeOf 1, pyStrip "Title".data, 0⟩ ∧
    1 = countLeading (· == '#') (pyStrip "# Title".data) ∧ 1 ≤ 1 ∧ 1 ≤ 3 :=
  claim_C5_amended.1 "# Title".data 1 "Title".data (by decide) (by decide)
    (by decide)

lemma checkboxMatch_inv {line g : List Char}
    (h : checkboxMatch line = some g) :
    ∃ c rest, line.dropWhile pyIsSpace = c :: rest ∧ (c = '-' ∨ c = '*') ∧
      '[' ∈ rest := by
  rcases hd : line.dropWhile pyIsSpace with _ | ⟨c, rest⟩
  · simp [checkboxMatch, hd] at h
  · simp only [checkboxMatch, hd] at h
    split_ifs at h with hc hw hbr
    refine ⟨c, rest, rfl, ?_, ?_⟩
    · simpa only [Bool.or_eq_true, beq_iff_eq] using hc
    · have hmem : '[' ∈ (rest.drop (countLeading pyIsSpace rest)).take 3 := by
        rw [hbr]; simp
      exact List.mem_of_mem_drop (List.mem_of_mem_take hmem)

lemma classify_checkbox {line g : List Char}
    (h : checkboxMatch line = some g) :
    classifyLine line = ⟨.checkbox, pyStrip g, leadingSpaces line / 2⟩ := by
  obtain ⟨c, rest, hd, hc, hbr⟩ := checkboxMatch_inv h
  have hcs : pyIsSpace c = false := by rcases hc with rfl | rfl <;> decide
  have hstrip : pyStrip line = c :: pyRStrip rest := by
    rw [pyStrip_eq_rstrip_dropWhile, hd, pyRStrip_cons hcs]
  have hne : pyStrip line ≠ [] := by rw [hstrip]; simp
  have hbrmem : '[' ∈ pyStrip line := by
    rw [hstrip]
    exact List.mem_cons_of_mem c (mem_pyRStrip hbr (by decide))
  have hnhr : pyStrip line ≠ hrMarker := by
    intro heq
    rw [heq] at hbrmem
    exact absurd hbrmem (by decide)
  have hhm : headingMatch (pyStrip line) = none := by
    rw [hstrip]
    unfold headingMatch
    have h0 : countLeading (· == '#') (c :: pyRStrip rest) = 0 := by
      unfold countLeading
      rcases hc with rfl | rfl <;> simp [List.takeWhile_cons]
    rw [h0]
    simp
  simp [classifyLine, hne, hnhr, hhm, h]

/-- Claim C6: every line the checkbox regex matches is classified as a
checkbox — never as a generic bullet — with text the match group trimmed and
level the leading-space count divided by two; the line `"  - [ ] task one"`
(two leading spaces) yields a checkbox block `"task one"` at level 1. -/
theorem claim_C6 :
    (∀ line g, checkboxMatch line = some g →
      classifyLine line = ⟨.checkbox, pyStrip g, leadingSpaces line / 2⟩ ∧
      (classifyLine line).type ≠ .bullet) ∧
    parse_markdown "  - [ ] task one".data =
      [⟨.checkbox, "task one".data, 1⟩] ∧
    leadingSpaces "  - [ ] task one".data = 2 := by
  refine ⟨?_, by decide, by decide⟩
  intro line g h
  have hcl := classify_checkbox h
  exact ⟨hcl, by rw [hcl]; simp⟩

/-- Witness for C6 at the line `"  - [ ] task one"`. -/
theorem claim_C6_witness :
    classifyLine "  - [ ] task one".data =
      ⟨.checkbox, pyStrip "task one".data,
        leadingSpaces "  - [ ] task one".data / 2⟩ ∧
    (classifyLine "  - [ ] task one".data).type ≠ .bullet :=
  claim_C6.1 "  - [ ] task one".data "task one".data (by decide)

end MdToGdoc
